import Mathlib

/-!
Shallow embedding of the hover-reactive-3d-cards repository pieces that the
specification talks about: the pointer-reactive card transform
(`src/components/ui/Card.tsx` and its variant-aware revision) and the log
catalog accessor (`src/app/logs/page.tsx`, `src/app/logs/[slug]/page.tsx`).
-/

/-- A JavaScript IEEE-754 number restricted to the values reachable in this
development: `NaN`, the two signed infinities (`inf true` is `+Infinity`,
`inf false` is `-Infinity`), and finite values modelled exactly as rationals.
Every arithmetic step the embedded code performs on finite inputs is exact,
so no rounding model is needed; the sum type captures the divide-by-zero
behaviour of JavaScript (`x / 0` is `±Infinity` for `x ≠ 0` and `NaN` for
`0 / 0`), which Lean's rational division would silently collapse to `0`. -/
inductive JSNum where
  | nan : JSNum
  | inf : Bool → JSNum
  | fin : ℚ → JSNum
deriving DecidableEq

/-- JavaScript subtraction on numbers (negative zero plays no role here). -/
def JSNum.sub : JSNum → JSNum → JSNum
  | .nan, _ => .nan
  | _, .nan => .nan
  | .inf s, .inf t => if s = t then .nan else .inf s
  | .inf s, .fin _ => .inf s
  | .fin _, .inf t => .inf (!t)
  | .fin a, .fin b => .fin (a - b)

/-- JavaScript multiplication on numbers. -/
def JSNum.mul : JSNum → JSNum → JSNum
  | .nan, _ => .nan
  | _, .nan => .nan
  | .inf s, .inf t => .inf (s == t)
  | .inf s, .fin b => if b = 0 then .nan else .inf (s == decide (0 < b))
  | .fin a, .inf t => if a = 0 then .nan else .inf (t == decide (0 < a))
  | .fin a, .fin b => .fin (a * b)

/-- JavaScript division on numbers: division by (positive) zero yields an
infinity of the numerator's sign, and `0 / 0` yields `NaN`. The zeroes
produced by `getBoundingClientRect` are positive zeroes, so the negative-zero
branch of IEEE-754 is not modelled. -/
def JSNum.div : JSNum → JSNum → JSNum
  | .nan, _ => .nan
  | _, .nan => .nan
  | .inf _, .inf _ => .nan
  | .inf s, .fin b => if b = 0 then .inf s else .inf (s == decide (0 < b))
  | .fin _, .inf _ => .fin 0
  | .fin a, .fin b =>
      if b = 0 then (if a = 0 then .nan else .inf (decide (0 < a)))
      else .fin (a / b)

/-- The card surface's bounding rectangle, as returned by
`e.currentTarget.getBoundingClientRect()`: position (`left`, `top`) and size
(`width`, `height`) in page coordinates. These are always finite numbers. -/
structure Rect where
  left : ℚ
  top : ℚ
  width : ℚ
  height : ℚ
deriving DecidableEq

/-- The `mousePosition` state of the Card component:
`x`/`y` are the rotation angles (`rotateX`/`rotateY`) and `mouseX`/`mouseY`
the pointer position relative to the card's top-left corner. -/
structure MousePosition where
  x : JSNum
  y : JSNum
  mouseX : JSNum
  mouseY : JSNum
deriving DecidableEq

/-- The initial state passed to `useState`:
`{ x: 0, y: 0, mouseX: 0, mouseY: 0 }`. -/
def initialMousePosition : MousePosition :=
  ⟨.fin 0, .fin 0, .fin 0, .fin 0⟩

/-- The `handleMouseMove` handler of the Card component:

* `mouseX = e.clientX - cardPosition.left`, `mouseY = e.clientY - cardPosition.top`;
* `rotateX = ((mouseY - cardPosition.height / 2) / cardPosition.height) * 10`;
* `rotateY = ((mouseX - cardPosition.width / 2) / cardPosition.width) * 10`;
* state is replaced by `{ x: rotateX, y: rotateY, mouseX, mouseY }`.

The event coordinates `clientX`/`clientY` are finite numbers; the arithmetic
is performed with the JavaScript number operations above (there is no guard
against a zero `width` or `height` in the source). -/
def handleMouseMove (cardPosition : Rect) (clientX clientY : ℚ) : MousePosition :=
  let mouseX := JSNum.sub (.fin clientX) (.fin cardPosition.left)
  let mouseY := JSNum.sub (.fin clientY) (.fin cardPosition.top)
  let rotateX := JSNum.mul
    (JSNum.div (JSNum.sub mouseY (.fin (cardPosition.height / 2))) (.fin cardPosition.height))
    (.fin 10)
  let rotateY := JSNum.mul
    (JSNum.div (JSNum.sub mouseX (.fin (cardPosition.width / 2))) (.fin cardPosition.width))
    (.fin 10)
  ⟨rotateX, rotateY, mouseX, mouseY⟩

/-- The `handleMouseLeave` handler: it resets the state to
`{ x: 0, y: 0, mouseX: 0, mouseY: 0 }` unconditionally. -/
def handleMouseLeave : MousePosition :=
  ⟨.fin 0, .fin 0, .fin 0, .fin 0⟩

/-- The card variants of the variant-aware Card revision. -/
inductive Variant where
  | default : Variant
  | accent : Variant
  | dark : Variant
deriving DecidableEq

/-- One entry of the `variantConfigs` table. -/
structure VariantConfig where
  stiffness : ℚ
  damping : ℚ
  bgColor : String
  shadowColor : String
deriving DecidableEq

/-- The `variantConfigs` table of the Card component. -/
def variantConfigs : Variant → VariantConfig
  | .default => ⟨300, 20, "bg-red-500", "rgba(0, 0, 0, 0.2)"⟩
  | .accent => ⟨400, 15, "bg-blue-500", "rgba(0, 0, 0, 0.3)"⟩
  | .dark => ⟨250, 25, "bg-gray-800", "rgba(0, 0, 0, 0.4)"⟩

/-- A CSS box shadow `Hpx Vpx Bpx color`: in CSS the first length is the
horizontal offset, the second the vertical offset, the third the blur. -/
structure BoxShadow where
  offsetX : JSNum
  offsetY : JSNum
  blur : ℚ
  color : String
deriving DecidableEq

/-- The shadow the Card's `animate` prop builds from the current state, from
the template string
`boxShadow: mousePosition.y / 10 px, mousePosition.x / 10 px, 20px, config.shadowColor`
(the first slot, the CSS horizontal offset, holds `mousePosition.y / 10`, and
the second slot, the CSS vertical offset, holds `mousePosition.x / 10`). -/
def cardBoxShadow (mousePosition : MousePosition) (config : VariantConfig) : BoxShadow :=
  ⟨JSNum.div mousePosition.y (.fin 10),
   JSNum.div mousePosition.x (.fin 10),
   20,
   config.shadowColor⟩

/-- The pointer events the Card component reacts to. -/
inductive CardEvent where
  | mouseMove : Rect → ℚ → ℚ → CardEvent
  | mouseLeave : CardEvent

/-- One step of the Card's state machine: `onMouseMove` runs
`handleMouseMove` (which ignores the previous state), `onMouseLeave` runs
`handleMouseLeave`. -/
def stepCard (_mousePosition : MousePosition) : CardEvent → MousePosition
  | .mouseMove rect clientX clientY => handleMouseMove rect clientX clientY
  | .mouseLeave => handleMouseLeave

/-- The Card state after a sequence of pointer events, starting from the
mount-time state. -/
def runCard (events : List CardEvent) : MousePosition :=
  events.foldl stepCard initialMousePosition

/-- One document record of the generated `allLogs` collection. The source's
`date` field holds an ISO date string that is consumed only through
`parseISO(date).getTime()` of the external date library; the field is
modelled directly by that integer timestamp (milliseconds since the epoch),
as the parsing toolchain is outside this repository. -/
structure Log where
  slug : String
  title : String
  description : String
  date : ℤ
deriving DecidableEq

/-- The comparator of `sortLogs`, recast as a boolean order: JavaScript's
`Array.prototype.sort` places `a` no later than `b` exactly when the
comparator `parseISO(b.date).getTime() - parseISO(a.date).getTime()` is
not positive. -/
def logsLe (a b : Log) : Bool :=
  decide (b.date - a.date ≤ 0)

/-- The ordering computed by
`sortLogs = (logs) => logs.sort((a, b) => parseISO(b.date).getTime() - parseISO(a.date).getTime())`:
`Array.prototype.sort` is a stable sort by the comparator (ECMAScript 2019),
so the result is the stable sort of the input by `logsLe`. -/
def sortLogs (logs : List Log) : List Log :=
  logs.mergeSort logsLe

/-- A call of the source's `sortLogs`: `Array.prototype.sort` reorders the
receiver array in place and returns that same array, so a call is modelled by
the pair (contents of the supplied array after the call, returned array). -/
def sortLogsCall (logs : List Log) : List Log × List Log :=
  (sortLogs logs, sortLogs logs)

/-- Result of rendering the `[slug]` page: either the `notFound()` signal or
the page rendered from the found log. -/
inductive PageResult where
  | notFound : PageResult
  | page : Log → PageResult
deriving DecidableEq

/-- The `LogPage` server component:
`const log = allLogs.find((log) => log.slug === params.slug); if (!log) notFound();`
then the page is rendered from `log`. (`find` returns the first match or
`undefined`; a found record is an object and hence never falsy.) -/
def LogPage (logs : List Log) (slug : String) : PageResult :=
  match logs.find? (fun log => log.slug == slug) with
  | none => .notFound
  | some log => .page log

/-- The record `{slug: "a", publishedAt: 2024-01-01}` of the specification's
scenario; `1704067200000` is the epoch-millisecond value of 2024-01-01. -/
def logA : Log :=
  ⟨"a", "A", "first", 1704067200000⟩

/-- The record `{slug: "b", publishedAt: 2025-01-01}` of the specification's
scenario; `1735689600000` is the epoch-millisecond value of 2025-01-01. -/
def logB : Log :=
  ⟨"b", "B", "second", 1735689600000⟩

/-! Helper lemmas shared by several results. -/

/-- For positive-size surfaces the mouse-move computation stays in the finite
fragment, and every field is the expected rational. -/
lemma rotate_formula (rect : Rect) (clientX clientY : ℚ)
    (hw : rect.width ≠ 0) (hh : rect.height ≠ 0) :
    handleMouseMove rect clientX clientY =
      ⟨JSNum.fin ((clientY - rect.top - rect.height / 2) / rect.height * 10),
       JSNum.fin ((clientX - rect.left - rect.width / 2) / rect.width * 10),
       JSNum.fin (clientX - rect.left), JSNum.fin (clientY - rect.top)⟩ := by
  simp [handleMouseMove, JSNum.sub, JSNum.div, JSNum.mul, hw, hh]

/-- The rotation formula is bounded by half the scale factor: an offset `d`
inside `[0, h]` gives `|((d - h/2)/h) * 10| ≤ 5`. -/
lemma offset_mul_ten_abs_le (h d : ℚ) (hp : 0 < h) (h0 : 0 ≤ d) (h1 : d ≤ h) :
    |(d - h / 2) / h * 10| ≤ 5 := by
  have hne : h ≠ 0 := hp.ne'
  have hd0 : 0 ≤ d / h := div_nonneg h0 hp.le
  have hd1 : d / h ≤ 1 := (div_le_one hp).mpr h1
  have e : (d - h / 2) / h * 10 = d / h * 10 - 5 := by
    field_simp
    ring
  rw [e, abs_le]
  constructor <;> nlinarith

/-- Transitivity of the boolean order underlying the sort comparator. -/
lemma logsLe_trans (a b c : Log) (hab : logsLe a b = true) (hbc : logsLe b c = true) :
    logsLe a c = true := by
  simp only [logsLe, decide_eq_true_eq] at *
  omega

/-- Totality of the boolean order underlying the sort comparator. -/
lemma logsLe_total (a b : Log) : (logsLe a b || logsLe b a) = true := by
  simp only [logsLe, Bool.or_eq_true, decide_eq_true_eq]
  omega

/-- Sorting the specification's two-record scenario catalog swaps the
records: the 2025 record comes first. -/
lemma sortLogs_pair : sortLogs [logA, logB] = [logB, logA] := by
  simp [sortLogs, List.mergeSort, logsLe, logA, logB]

/-- Stability of the sort: the records carrying any fixed date appear in the
output in exactly their input order. -/
lemma sortLogs_filter_stable (logs : List Log) (d : ℤ) :
    (sortLogs logs).filter (fun l => l.date == d) = logs.filter (fun l => l.date == d) := by
  set p : Log → Bool := fun l => l.date == d with hp
  have hpw : (logs.filter p).Pairwise (fun a b => logsLe a b = true) := by
    apply List.pairwise_of_forall_mem_list
    intro x hx y hy
    have hxd : x.date = d := by simpa [hp] using (List.mem_filter.mp hx).2
    have hyd : y.date = d := by simpa [hp] using (List.mem_filter.mp hy).2
    simp [logsLe, hxd, hyd]
  have hsub2 : (logs.filter p).Sublist (sortLogs logs) :=
    List.sublist_mergeSort logsLe_trans logsLe_total hpw (List.filter_sublist logs)
  have hsub3 : (logs.filter p).Sublist ((sortLogs logs).filter p) := by
    have h4 := List.Sublist.filter p hsub2
    have h5 : (logs.filter p).filter p = logs.filter p := by
      rw [List.filter_filter]
      simp
    rwa [h5] at h4
  have hperm : ((sortLogs logs).filter p).Perm (logs.filter p) :=
    (List.mergeSort_perm logs logsLe).filter p
  exact (hsub3.eq_of_length hperm.length_eq.symm).symm

/-- Membership and slug uniqueness pin down the result of `allLogs.find`. -/
lemma find_eq_of_mem (logs : List Log) (s : String)
    (huniq : logs.Pairwise (fun a b => a.slug ≠ b.slug))
    (l : Log) (hmem : l ∈ logs) (hslug : l.slug = s) :
    logs.find? (fun x => x.slug == s) = some l := by
  induction logs with
  | nil => cases hmem
  | cons a as ih =>
      rcases List.pairwise_cons.mp huniq with ⟨hhead, htail⟩
      rcases List.mem_cons.mp hmem with rfl | hmem2
      · exact List.find?_cons_of_pos as (by simp [hslug])
      · have hne : a.slug ≠ s := by
          rw [← hslug]
          exact hhead l hmem2
        rw [List.find?_cons_of_neg as (by simp [hne])]
        exact ih htail hmem2

/-! Results on the claims. -/

/-- C1 (counterexample): it is not the case that the drop shadow's horizontal
offset equals `rotationX / 10`. At the pose reached by a pointer-move at page
`(400, 200)` on a 400x400 surface at the origin the horizontal (first) CSS
offset is `rotationY / 10 = 0.5`, while `rotationX / 10 = 0`. -/
theorem C1_shadow_axes_counterexample :
    ¬ ((cardBoxShadow (handleMouseMove ⟨0, 0, 400, 400⟩ 400 200)
          (variantConfigs Variant.default)).offsetX =
        JSNum.div (handleMouseMove ⟨0, 0, 400, 400⟩ 400 200).x (JSNum.fin 10)) := by
  simp [cardBoxShadow, handleMouseMove, variantConfigs, JSNum.sub, JSNum.div, JSNum.mul]
  norm_num

/-- C1 (amended): for every displayed pose, the drop shadow's horizontal
offset in pixels equals `rotationY / 10` and its vertical offset equals
`rotationX / 10`, with blur fixed at 20 and color equal to the variant's
shadow tint. -/
theorem C1_shadow_formula_amended (mousePosition : MousePosition) (v : Variant) :
    (cardBoxShadow mousePosition (variantConfigs v)).offsetX
        = JSNum.div mousePosition.y (JSNum.fin 10) ∧
    (cardBoxShadow mousePosition (variantConfigs v)).offsetY
        = JSNum.div mousePosition.x (JSNum.fin 10) ∧
    (cardBoxShadow mousePosition (variantConfigs v)).blur = 20 ∧
    (cardBoxShadow mousePosition (variantConfigs v)).color = (variantConfigs v).shadowColor :=
  ⟨rfl, rfl, rfl, rfl⟩

/-- C2 (counterexample): after a call to the catalog accessor's `list()` on
the two-record scenario catalog, the source collection is not in its
original order: `Array.prototype.sort` reordered it in place. -/
theorem C2_list_mutates_counterexample :
    ¬ ((sortLogsCall [logA, logB]).1 = [logA, logB]) := by
  intro h
  have e : (sortLogsCall [logA, logB]).1 = [logB, logA] := sortLogs_pair
  rw [e] at h
  injection h with h1 h2
  exact absurd h1 (by decide)

/-- C2 (amended): `list()` sorts the supplied collection in place: after any
call, the source collection holds exactly the returned ordered view (the same
reordered array), which is a permutation of the original elements. -/
theorem C2_inplace_sort_amended (logs : List Log) :
    (sortLogsCall logs).1 = (sortLogsCall logs).2 ∧
    ((sortLogsCall logs).1).Perm logs :=
  ⟨rfl, List.mergeSort_perm logs logsLe⟩

/-- C3 (code evaluated at the failing input): the pointer-move computation has
no zero-size guard. On a surface of width 400 and height 0 at the origin, a
pointer at page `(200, 0)` yields `rotationX = NaN` (a `0 / 0`), a pointer at
page `(200, 100)` yields `rotationX = +Infinity`, and neither state is the
neutral pose — contradicting the claim that a zero-size surface yields the
neutral pose and never NaN/undefined rotations. -/
theorem C3_zero_size_divide_unguarded :
    (handleMouseMove ⟨0, 0, 400, 0⟩ 200 0).x = JSNum.nan ∧
    (handleMouseMove ⟨0, 0, 400, 0⟩ 200 100).x = JSNum.inf true ∧
    handleMouseMove ⟨0, 0, 400, 0⟩ 200 0 ≠ initialMousePosition := by
  refine ⟨?_, ?_, ?_⟩ <;>
    simp [handleMouseMove, initialMousePosition, JSNum.sub, JSNum.div, JSNum.mul]

/-- C4: for a 400x400 surface at the page origin, a pointer-move at page
`(400, 200)` yields `localX = 400`, `localY = 200`, normalized offsets
`offsetX = 0.5` and `offsetY = 0`, and a target pose with `rotationX = 0`
and `rotationY = 5`. -/
theorem C4_scenario_400x400 :
    (handleMouseMove ⟨0, 0, 400, 400⟩ 400 200).mouseX = JSNum.fin 400 ∧
    (handleMouseMove ⟨0, 0, 400, 400⟩ 400 200).mouseY = JSNum.fin 200 ∧
    JSNum.div (JSNum.sub (handleMouseMove ⟨0, 0, 400, 400⟩ 400 200).mouseX
        (JSNum.fin (400 / 2))) (JSNum.fin 400) = JSNum.fin (1 / 2) ∧
    JSNum.div (JSNum.sub (handleMouseMove ⟨0, 0, 400, 400⟩ 400 200).mouseY
        (JSNum.fin (400 / 2))) (JSNum.fin 400) = JSNum.fin 0 ∧
    (handleMouseMove ⟨0, 0, 400, 400⟩ 400 200).x = JSNum.fin 0 ∧
    (handleMouseMove ⟨0, 0, 400, 400⟩ 400 200).y = JSNum.fin 5 := by
  refine ⟨?_, ?_, ?_, ?_, ?_, ?_⟩ <;>
    simp [handleMouseMove, JSNum.sub, JSNum.div, JSNum.mul] <;> norm_num

/-- C5: for every pointer position strictly inside the bounds of a
positive-size surface, the computed rotation angles are finite and satisfy
`|rotationX| ≤ 10` and `|rotationY| ≤ 10`. -/
theorem C5_rotation_bound_ten (rect : Rect) (clientX clientY : ℚ)
    (hw : 0 < rect.width) (hh : 0 < rect.height)
    (hx1 : rect.left < clientX) (hx2 : clientX < rect.left + rect.width)
    (hy1 : rect.top < clientY) (hy2 : clientY < rect.top + rect.height) :
    ∃ rx ry : ℚ,
      (handleMouseMove rect clientX clientY).x = JSNum.fin rx ∧
      (handleMouseMove rect clientX clientY).y = JSNum.fin ry ∧
      |rx| ≤ 10 ∧ |ry| ≤ 10 := by
  have hf := rotate_formula rect clientX clientY hw.ne' hh.ne'
  refine ⟨(clientY - rect.top - rect.height / 2) / rect.height * 10,
          (clientX - rect.left - rect.width / 2) / rect.width * 10,
          by rw [hf], by rw [hf], ?_, ?_⟩
  · have hb := offset_mul_ten_abs_le rect.height (clientY - rect.top) hh
      (by linarith) (by linarith)
    calc |(clientY - rect.top - rect.height / 2) / rect.height * 10|
        ≤ 5 := by
          have e : clientY - rect.top - rect.height / 2
              = (clientY - rect.top) - rect.height / 2 := by ring
          rw [e]; exact hb
      _ ≤ 10 := by norm_num
  · have hb := offset_mul_ten_abs_le rect.width (clientX - rect.left) hw
      (by linarith) (by linarith)
    calc |(clientX - rect.left - rect.width / 2) / rect.width * 10|
        ≤ 5 := by
          have e : clientX - rect.left - rect.width / 2
              = (clientX - rect.left) - rect.width / 2 := by ring
          rw [e]; exact hb
      _ ≤ 10 := by norm_num

/-- Witness for C5 at the 400x400 surface at the origin with pointer
`(100, 100)`. -/
theorem C5_rotation_bound_ten_witness :
    ∃ rx ry : ℚ,
      (handleMouseMove ⟨0, 0, 400, 400⟩ 100 100).x = JSNum.fin rx ∧
      (handleMouseMove ⟨0, 0, 400, 400⟩ 100 100).y = JSNum.fin ry ∧
      |rx| ≤ 10 ∧ |ry| ≤ 10 :=
  C5_rotation_bound_ten ⟨0, 0, 400, 400⟩ 100 100 (by norm_num) (by norm_num)
    (by norm_num) (by norm_num) (by norm_num) (by norm_num)

/-- C6: the pointer-leave handler drives the state to the neutral pose
`{0, 0, 0, 0}` regardless of the prior pose, the neutral pose is also the
mount-time initial state, and after any event sequence ending in a
pointer-leave the state equals the neutral pose. -/
theorem C6_pointer_leave_neutral :
    (∀ mousePosition : MousePosition,
      stepCard mousePosition CardEvent.mouseLeave = initialMousePosition) ∧
    handleMouseLeave = initialMousePosition ∧
    initialMousePosition = ⟨JSNum.fin 0, JSNum.fin 0, JSNum.fin 0, JSNum.fin 0⟩ ∧
    ∀ events : List CardEvent,
      runCard (events ++ [CardEvent.mouseLeave]) = initialMousePosition := by
  refine ⟨fun mousePosition => rfl, rfl, rfl, fun events => ?_⟩
  simp [runCard, List.foldl_append, stepCard, handleMouseLeave, initialMousePosition]

/-- C7: `list()` returns the records ordered by date descending (pairwise,
most recent first), as a permutation of the catalog, with ties kept in the
original input order (the records of each fixed date appear exactly in input
order); on the scenario catalog `[a@2024-01-01, b@2025-01-01]` it returns
`[b, a]`. -/
theorem C7_list_sorted_desc_stable :
    (∀ logs : List Log,
      (sortLogs logs).Pairwise (fun a b => b.date ≤ a.date) ∧
      (sortLogs logs).Perm logs ∧
      ∀ d : ℤ, (sortLogs logs).filter (fun l => l.date == d) =
        logs.filter (fun l => l.date == d)) ∧
    sortLogs [logA, logB] = [logB, logA] := by
  refine ⟨fun logs => ⟨?_, List.mergeSort_perm logs logsLe, sortLogs_filter_stable logs⟩,
    sortLogs_pair⟩
  have hs := List.sorted_mergeSort logsLe_trans logsLe_total logs
  refine hs.imp ?_
  intro a b hab
  simp only [logsLe, decide_eq_true_eq] at hab
  omega

/-- C8: `list()` is idempotent: a second call on the catalog left in place by
the first call (unchanged in between) returns the identical ordering, and
sorting an already-sorted catalog changes nothing. -/
theorem C8_list_idempotent (logs : List Log) :
    (sortLogsCall ((sortLogsCall logs).1)).2 = (sortLogsCall logs).2 ∧
    sortLogs (sortLogs logs) = sortLogs logs := by
  have h : sortLogs (sortLogs logs) = sortLogs logs :=
    List.mergeSort_of_sorted (List.sorted_mergeSort logsLe_trans logsLe_total logs)
  exact ⟨h, h⟩

/-- C9: on a catalog with pairwise-distinct slugs, `find(slug)` rendered
through the page yields the unique record whose slug matches, and yields the
`notFound` signal when no record's slug matches. -/
theorem C9_find_unique_or_notFound (logs : List Log) (s : String)
    (huniq : logs.Pairwise (fun a b => a.slug ≠ b.slug)) :
    (∀ l, l ∈ logs → l.slug = s → LogPage logs s = PageResult.page l) ∧
    ((∀ l, l ∈ logs → l.slug ≠ s) → LogPage logs s = PageResult.notFound) := by
  constructor
  · intro l hmem hslug
    have h := find_eq_of_mem logs s huniq l hmem hslug
    simp [LogPage, h]
  · intro habs
    have h : logs.find? (fun x => x.slug == s) = none :=
      List.find?_eq_none.mpr (by intro x hx; simpa using habs x hx)
    simp [LogPage, h]

/-- Witness for C9 on the scenario catalog: slug "a" is found and slug
"missing" signals the not-found condition. -/
theorem C9_find_unique_or_notFound_witness :
    LogPage [logA, logB] "a" = PageResult.page logA ∧
    LogPage [logA, logB] "missing" = PageResult.notFound := by
  constructor
  · exact (C9_find_unique_or_notFound [logA, logB] "a" (by decide)).1 logA (by decide) rfl
  · exact (C9_find_unique_or_notFound [logA, logB] "missing" (by decide)).2 (by decide)

/-- C10: for every pointer position inside the bounds (boundary included) of
a positive-size surface, the rotation angles satisfy the tighter bound
`|rotationX| ≤ 5` and `|rotationY| ≤ 5`: the normalized center offset lies in
`[-0.5, 0.5]` and is multiplied by 10 with no further clamping. -/
theorem C10_rotation_bound_five (rect : Rect) (clientX clientY : ℚ)
    (hw : 0 < rect.width) (hh : 0 < rect.height)
    (hx1 : rect.left ≤ clientX) (hx2 : clientX ≤ rect.left + rect.width)
    (hy1 : rect.top ≤ clientY) (hy2 : clientY ≤ rect.top + rect.height) :
    ∃ rx ry : ℚ,
      (handleMouseMove rect clientX clientY).x = JSNum.fin rx ∧
      (handleMouseMove rect clientX clientY).y = JSNum.fin ry ∧
      |rx| ≤ 5 ∧ |ry| ≤ 5 := by
  have hf := rotate_formula rect clientX clientY hw.ne' hh.ne'
  refine ⟨(clientY - rect.top - rect.height / 2) / rect.height * 10,
          (clientX - rect.left - rect.width / 2) / rect.width * 10,
          by rw [hf], by rw [hf], ?_, ?_⟩
  · have hb := offset_mul_ten_abs_le rect.height (clientY - rect.top) hh
      (by linarith) (by linarith)
    have e : clientY - rect.top - rect.height / 2
        = (clientY - rect.top) - rect.height / 2 := by ring
    rw [e]; exact hb
  · have hb := offset_mul_ten_abs_le rect.width (clientX - rect.left) hw
      (by linarith) (by linarith)
    have e : clientX - rect.left - rect.width / 2
        = (clientX - rect.left) - rect.width / 2 := by ring
    rw [e]; exact hb

/-- Witness for C10 at the 400x400 surface at the origin with pointer
`(400, 200)` on the boundary. -/
theorem C10_rotation_bound_five_witness :
    ∃ rx ry : ℚ,
      (handleMouseMove ⟨0, 0, 400, 400⟩ 400 200).x = JSNum.fin rx ∧
      (handleMouseMove ⟨0, 0, 400, 400⟩ 400 200).y = JSNum.fin ry ∧
      |rx| ≤ 5 ∧ |ry| ≤ 5 :=
  C10_rotation_bound_five ⟨0, 0, 400, 400⟩ 400 200 (by norm_num) (by norm_num)
    (by norm_num) (by norm_num) (by norm_num) (by norm_num)
